import Mathlib

/-!
Verification development for the Orthanc core: the HTTP response state
machine (HttpOutput.cpp), the server index (ServerIndex.cpp) and the REST
modify/anonymize glue (OrthancRestAnonymizeModify.cpp), shallowly embedded
as executable Lean definitions.
-/

namespace Orthanc

/-- The error kinds raised by the embedded code (OrthancException codes). -/
inductive ErrorCode where
  | BadSequenceOfCalls
  | ParameterOutOfRange
  | InternalError
  | BadRequest
deriving DecidableEq, Repr

/-! ## HttpOutput state machine (src/Core/HttpServer/HttpOutput.cpp) -/

/-- The three states of HttpOutput::StateMachine. -/
inductive HState where
  | WritingHeader
  | WritingBody
  | Done
deriving DecidableEq, Repr

/-- The mutable fields of HttpOutput::StateMachine.  The HTTP status is kept
as its numeric code (200 = HttpStatus_200_Ok). -/
structure StateMachine where
  state : HState
  status : Nat
  hasContentLength : Bool
  contentLength : Nat
  contentPosition : Nat
  keepAlive : Bool
  headers : List String
deriving DecidableEq, Repr

/-- StateMachine constructor: WritingHeader, status 200, no declared length. -/
def StateMachine.init (keepAlive : Bool) : StateMachine :=
  ⟨HState.WritingHeader, 200, false, 0, 0, keepAlive, []⟩

/-- HttpOutput::StateMachine::SetHttpStatus. -/
def setHttpStatus (sm : StateMachine) (code : Nat) : StateMachine × Option ErrorCode :=
  if sm.state ≠ HState.WritingHeader then (sm, some ErrorCode.BadSequenceOfCalls)
  else ({ sm with status := code }, none)

/-- HttpOutput::StateMachine::SetContentLength. -/
def setContentLength (sm : StateMachine) (len : Nat) : StateMachine × Option ErrorCode :=
  if sm.state ≠ HState.WritingHeader then (sm, some ErrorCode.BadSequenceOfCalls)
  else ({ sm with hasContentLength := true, contentLength := len }, none)

/-- HttpOutput::StateMachine::AddHeader. -/
def addHeader (sm : StateMachine) (header value : String) : StateMachine × Option ErrorCode :=
  if sm.state ≠ HState.WritingHeader then (sm, some ErrorCode.BadSequenceOfCalls)
  else ({ sm with headers := sm.headers ++ [header ++ ": " ++ value] }, none)

/-- HttpOutput::StateMachine::ClearHeaders. -/
def clearHeaders (sm : StateMachine) : StateMachine × Option ErrorCode :=
  if sm.state ≠ HState.WritingHeader then (sm, some ErrorCode.BadSequenceOfCalls)
  else ({ sm with headers := [] }, none)

/-- HttpOutput::StateMachine::SetCookie (checks the state, then delegates to
AddHeader on the Set-Cookie header). -/
def setCookie (sm : StateMachine) (cookie value : String) : StateMachine × Option ErrorCode :=
  if sm.state ≠ HState.WritingHeader then (sm, some ErrorCode.BadSequenceOfCalls)
  else addHeader sm "Set-Cookie" (cookie ++ "=" ++ value)

/-- Result of one SendBody call: the state machine afterwards, the
Content-Length value written in the header block when this call flushed it
(mirroring the bytes put on the wire before any exception), and the raised
error, if any. -/
structure SendResult where
  sm : StateMachine
  header : Option Nat
  error : Option ErrorCode
deriving DecidableEq, Repr

/-- HttpOutput::StateMachine::SendBody, with the buffer abstracted to its
byte count.  Follows the source: the Done-state check, the header flush
(discarding a declared length when the status is not 200 and emitting
Content-Length), the declared-length overflow check, the write, and the
transition to Done. -/
def sendBody (sm0 : StateMachine) (len : Nat) : SendResult :=
  if sm0.state = HState.Done then
    if len = 0 then ⟨sm0, none, none⟩
    else ⟨sm0, none, some ErrorCode.BadSequenceOfCalls⟩
  else
    let flush := sm0.state = HState.WritingHeader
    let hasCL := if flush ∧ sm0.status ≠ 200 then false else sm0.hasContentLength
    let header : Option Nat := if flush then some (if hasCL then sm0.contentLength else len) else none
    let sm1 : StateMachine :=
      { sm0 with state := if flush then HState.WritingBody else sm0.state,
                 hasContentLength := hasCL }
    if sm1.hasContentLength = true ∧ sm1.contentLength < sm1.contentPosition + len then
      ⟨sm1, header, some ErrorCode.BadSequenceOfCalls⟩
    else
      let sm2 := if 0 < len then { sm1 with contentPosition := sm1.contentPosition + len } else sm1
      let sm3 := if sm2.hasContentLength = false ∨ sm2.contentPosition = sm2.contentLength
                 then { sm2 with state := HState.Done } else sm2
      ⟨sm3, header, none⟩

/-! ## ServerIndex data model (src/OrthancServer/ServerIndex.cpp) -/

/-- The four resource kinds, in the enumeration order asserted by
Internals::ServerIndexListener (Patient < Study < Series < Instance). -/
inductive ResourceType where
  | Patient
  | Study
  | Series
  | Instance
deriving DecidableEq, Repr

/-- The numeric value of the ResourceType enumeration, giving the total
order Patient < Study < Series < Instance used by the delete listener. -/
def kindValue : ResourceType → Nat
  | ResourceType.Patient => 1
  | ResourceType.Study => 2
  | ResourceType.Series => 3
  | ResourceType.Instance => 4

/-- The metadata kinds used by the embedded code. -/
inductive MetadataType where
  | Instance_ReceptionDate
  | Instance_RemoteAet
  | Instance_IndexInSeries
  | Series_ExpectedNumberOfInstances
  | ModifiedFrom
  | AnonymizedFrom
deriving DecidableEq, Repr

/-- The change-log entry kinds used by the embedded code. -/
inductive ChangeType where
  | CompletedSeries
  | ModifiedSeries
  | ModifiedStudy
  | ModifiedPatient
deriving DecidableEq, Repr

/-- Return value of ServerIndex::Store. -/
inductive StoreStatus where
  | Success
  | AlreadyStored
  | Failure
deriving DecidableEq, Repr

/-- Return value of ServerIndex::GetSeriesStatus. -/
inductive SeriesStatus where
  | Complete
  | Missing
  | Inconsistent
  | Unknown
deriving DecidableEq, Repr

/-- A DICOM tag, as its (group, element) pair. -/
def DicomTag := Nat × Nat
deriving DecidableEq, Repr

def DICOM_TAG_PATIENT_ID : DicomTag := (0x0010, 0x0020)
def DICOM_TAG_PATIENT_NAME : DicomTag := (0x0010, 0x0010)
def DICOM_TAG_STUDY_INSTANCE_UID : DicomTag := (0x0020, 0x000d)
def DICOM_TAG_SERIES_INSTANCE_UID : DicomTag := (0x0020, 0x000e)
def DICOM_TAG_SOP_INSTANCE_UID : DicomTag := (0x0008, 0x0018)
def DICOM_TAG_INSTANCE_NUMBER : DicomTag := (0x0020, 0x0013)
def DICOM_TAG_IMAGE_INDEX : DicomTag := (0x0054, 0x1330)
def DICOM_TAG_NUMBER_OF_SLICES : DicomTag := (0x0054, 0x0081)
def DICOM_TAG_IMAGES_IN_ACQUISITION : DicomTag := (0x0020, 0x1002)
def DICOM_TAG_CARDIAC_NUMBER_OF_IMAGES : DicomTag := (0x0018, 0x1090)

/-- A DICOM summary: the association of tags to string values. -/
def DicomMap := List (DicomTag × String)
deriving DecidableEq, Repr

/-- DicomMap::TestAndGetValue: the value of a tag, when present. -/
def testAndGetValue (m : DicomMap) (t : DicomTag) : Option String :=
  (m.find? (fun p => p.1 = t)).map (fun p => p.2)

/-- Modelled from the spec: the Hasher replaces an empty identifier by a
sentinel before hashing (DicomInstanceHasher is not part of the sources). -/
def replaceEmpty (s : String) : String :=
  if s = "" then "(empty)" else s

/-- The identifier value of a tag as seen by the hasher: the stored value,
an empty string standing in for an absent tag, then the empty-value
sentinel. -/
def hasherComponent (m : DicomMap) (t : DicomTag) : String :=
  replaceEmpty ((testAndGetValue m t).getD "")

/-- Modelled from the spec: H is a fixed deterministic hash of the listed
identifier components (DicomInstanceHasher is not part of the sources).  It
is embedded as an injective encoding of the component list, which preserves
the two properties the index relies on: determinism and stability. -/
def hashOf (components : List String) : String :=
  String.intercalate "|" components

/-- Modelled from the spec: HashPatient = H(PatientID). -/
def hashPatient (m : DicomMap) : String :=
  hashOf [hasherComponent m DICOM_TAG_PATIENT_ID]

/-- Modelled from the spec: HashStudy = H(PatientID, StudyInstanceUID). -/
def hashStudy (m : DicomMap) : String :=
  hashOf [hasherComponent m DICOM_TAG_PATIENT_ID,
          hasherComponent m DICOM_TAG_STUDY_INSTANCE_UID]

/-- Modelled from the spec: HashSeries = H(PatientID, StudyInstanceUID,
SeriesInstanceUID). -/
def hashSeries (m : DicomMap) : String :=
  hashOf [hasherComponent m DICOM_TAG_PATIENT_ID,
          hasherComponent m DICOM_TAG_STUDY_INSTANCE_UID,
          hasherComponent m DICOM_TAG_SERIES_INSTANCE_UID]

/-- Modelled from the spec: HashInstance = H(PatientID, StudyInstanceUID,
SeriesInstanceUID, SOPInstanceUID). -/
def hashInstance (m : DicomMap) : String :=
  hashOf [hasherComponent m DICOM_TAG_PATIENT_ID,
          hasherComponent m DICOM_TAG_STUDY_INSTANCE_UID,
          hasherComponent m DICOM_TAG_SERIES_INSTANCE_UID,
          hasherComponent m DICOM_TAG_SOP_INSTANCE_UID]

/-- Modelled from the spec: the per-level MainDicomTags projections
(DicomMap::ExtractPatientInformation and friends are not part of the
sources).  Each level keeps the tags relevant to it; the exact tag sets do
not matter to the verified claims, only that the projection is a pure
function of the summary. -/
def extractByTags (m : DicomMap) (tags : List DicomTag) : DicomMap :=
  m.filter (fun p => tags.contains p.1)

def extractPatientInformation (m : DicomMap) : DicomMap :=
  extractByTags m [DICOM_TAG_PATIENT_ID, DICOM_TAG_PATIENT_NAME]

def extractStudyInformation (m : DicomMap) : DicomMap :=
  extractByTags m [DICOM_TAG_STUDY_INSTANCE_UID]

def extractSeriesInformation (m : DicomMap) : DicomMap :=
  extractByTags m [DICOM_TAG_SERIES_INSTANCE_UID,
                   DICOM_TAG_NUMBER_OF_SLICES,
                   DICOM_TAG_IMAGES_IN_ACQUISITION,
                   DICOM_TAG_CARDIAC_NUMBER_OF_IMAGES]

def extractInstanceInformation (m : DicomMap) : DicomMap :=
  extractByTags m [DICOM_TAG_SOP_INSTANCE_UID,
                   DICOM_TAG_INSTANCE_NUMBER,
                   DICOM_TAG_IMAGE_INDEX]

/-- An attachment row (FileInfo). -/
structure Attachment where
  uuid : String
  contentType : Nat
  compressedSize : Nat
  uncompressedSize : Nat
deriving DecidableEq, Repr

/-- A resource row of the index. -/
structure Resource where
  internalId : Nat
  publicId : String
  kind : ResourceType
deriving DecidableEq, Repr

/-- A change-log row. -/
structure Change where
  changeType : ChangeType
  resourceId : Nat
  resourceKind : ResourceType
deriving DecidableEq, Repr

/-- The observable state of the metadata index: resources, hierarchy edges
(parent, child), per-resource main tags, metadata, attachments and the
change log. -/
structure IndexState where
  nextId : Nat
  resources : List Resource
  hierarchy : List (Nat × Nat)
  mainTags : List (Nat × DicomMap)
  metadata : List (Nat × MetadataType × String)
  attachments : List (Nat × Attachment)
  changes : List Change
deriving DecidableEq, Repr

/-- The empty index. -/
def IndexState.empty : IndexState :=
  ⟨0, [], [], [], [], [], []⟩

/-- DatabaseWrapper::LookupResource by public id. -/
def lookupResource (s : IndexState) (publicId : String) : Option Resource :=
  s.resources.find? (fun r => r.publicId = publicId)

/-- DatabaseWrapper::CreateResource: allocate the next internal id and add
the resource row. -/
def createResource (s : IndexState) (publicId : String) (kind : ResourceType) :
    Nat × IndexState :=
  (s.nextId,
   { s with nextId := s.nextId + 1,
            resources := ⟨s.nextId, publicId, kind⟩ :: s.resources })

/-- DatabaseWrapper::AttachChild. -/
def attachChild (s : IndexState) (parent child : Nat) : IndexState :=
  { s with hierarchy := (parent, child) :: s.hierarchy }

/-- DatabaseWrapper::SetMainDicomTags. -/
def setMainDicomTags (s : IndexState) (id : Nat) (tags : DicomMap) : IndexState :=
  { s with mainTags := (id, tags) :: s.mainTags }

/-- DatabaseWrapper::AddAttachment. -/
def addAttachment (s : IndexState) (id : Nat) (a : Attachment) : IndexState :=
  { s with attachments := (id, a) :: s.attachments }

/-- DatabaseWrapper::SetMetadata (newest entry wins on lookup). -/
def setMetadata (s : IndexState) (id : Nat) (t : MetadataType) (v : String) : IndexState :=
  { s with metadata := (id, t, v) :: s.metadata }

/-- DatabaseWrapper::GetMetadata: the stored value, or none when the row is
absent. -/
def getMetadata (s : IndexState) (id : Nat) (t : MetadataType) : Option String :=
  (s.metadata.find? (fun e => e.1 = id ∧ e.2.1 = t)).map (fun e => e.2.2)

/-- DatabaseWrapper::GetChildrenInternalId. -/
def getChildrenInternalId (s : IndexState) (id : Nat) : List Nat :=
  (s.hierarchy.filter (fun p => p.1 = id)).map (fun p => p.2)

/-- DatabaseWrapper::LogChange. -/
def logChange (s : IndexState) (c : ChangeType) (id : Nat) (kind : ResourceType) : IndexState :=
  { s with changes := s.changes ++ [⟨c, id, kind⟩] }

/-! ## GetSeriesStatus (ServerIndex.cpp, lines 373-435) -/

/-- The numeric value of a decimal digit character, none otherwise. -/
def charDigit (c : Char) : Option Nat :=
  if 48 ≤ c.toNat ∧ c.toNat ≤ 57 then some (c.toNat - 48) else none

/-- Decimal accumulation over a character list; any non-digit fails. -/
def digitsLoop : List Char → Nat → Option Nat
  | [], acc => some acc
  | c :: rest, acc =>
    match charDigit c with
    | none => none
    | some d => digitsLoop rest (acc * 10 + d)

/-- boost::lexical_cast of a string to the unsigned count type: defined on
non-empty decimal digit strings, failing otherwise. -/
def parseDecimal (s : String) : Option Nat :=
  match s.data with
  | [] => none
  | c :: rest => digitsLoop (c :: rest) 0

/-- boost::lexical_cast of a metadata value to the unsigned count type; an
absent metadata row also fails the cast. -/
def parseCount (s : Option String) : Option Nat :=
  s.bind parseDecimal

/-- The loop of ServerIndex::GetSeriesStatus over the child instances of the
series: `seen` is the set of indices met so far (as a duplicate-free list).
A non-parsing index aborts with Unknown; an out-of-range or repeated index
aborts with Inconsistent; when the loop completes, the number of distinct
indices is compared with the expected count. -/
def seriesStatusLoop (expected : Nat) : List (Option String) → List Nat → SeriesStatus
  | [], seen => if seen.length = expected then SeriesStatus.Complete else SeriesStatus.Missing
  | c :: rest, seen =>
    match parseCount c with
    | none => SeriesStatus.Unknown
    | some index =>
      if index ≤ 0 ∨ expected < index then SeriesStatus.Inconsistent
      else if index ∈ seen then SeriesStatus.Inconsistent
      else seriesStatusLoop expected rest (index :: seen)

/-- ServerIndex::GetSeriesStatus, as a function of the
Series_ExpectedNumberOfInstances metadata of the series and of the
Instance_IndexInSeries metadata of its children, in enumeration order. -/
def getSeriesStatus (expectedMeta : Option String) (childMeta : List (Option String)) :
    SeriesStatus :=
  match parseCount expectedMeta with
  | none => SeriesStatus.Unknown
  | some expected => seriesStatusLoop expected childMeta []

/-- ServerIndex::GetSeriesStatus evaluated against the index state. -/
def getSeriesStatusState (s : IndexState) (id : Nat) : SeriesStatus :=
  getSeriesStatus (getMetadata s id MetadataType.Series_ExpectedNumberOfInstances)
    ((getChildrenInternalId s id).map
      (fun c => getMetadata s c MetadataType.Instance_IndexInSeries))

/-! ## ServerIndex::Store (ServerIndex.cpp, lines 230-350) -/

/-- The hierarchy walk of Store once the instance row exists: if the series
is present the instance is attached to it, otherwise the series (and, when
missing, the study and then the patient) is created, its level-projected
main tags are set and each new node is attached to its parent.  Returns the
internal id of the series, whether it was newly created, and the new
state. -/
def storeHierarchy (s : IndexState) (x : DicomMap) (instance_ : Nat) :
    Nat × Bool × IndexState :=
  match lookupResource s (hashSeries x) with
  | some r => (r.internalId, false, attachChild s r.internalId instance_)
  | none =>
    let p1 := createResource s (hashSeries x) ResourceType.Series
    let series := p1.1
    let t1 := setMainDicomTags p1.2 series (extractSeriesInformation x)
    let t2 := attachChild t1 series instance_
    let t3 :=
      match lookupResource t2 (hashStudy x) with
      | some r => attachChild t2 r.internalId series
      | none =>
        let p2 := createResource t2 (hashStudy x) ResourceType.Study
        let study := p2.1
        let u1 := setMainDicomTags p2.2 study (extractStudyInformation x)
        let u2 := attachChild u1 study series
        match lookupResource u2 (hashPatient x) with
        | some r => attachChild u2 r.internalId study
        | none =>
          let p3 := createResource u2 (hashPatient x) ResourceType.Patient
          let patient := p3.1
          let v1 := setMainDicomTags p3.2 patient (extractPatientInformation x)
          attachChild v1 patient study
    (series, true, t3)

/-- The tail of Store once the hierarchy is in place: register the
attachments against the new instance, set the reception metadata, the
index-in-series from InstanceNumber or ImageIndex, and (for a new series)
the expected-count metadata from NumberOfSlices, ImagesInAcquisition or
CardiacNumberOfImages; finally log a CompletedSeries change when the series
became Complete. -/
def storeFinish (x : DicomMap) (atts : List Attachment) (remoteAet now : String)
    (instance_ series : Nat) (isNewSeries : Bool) (s3 : IndexState) : IndexState :=
  let s4 := atts.foldl (fun st a => addAttachment st instance_ a) s3
  let s5 := setMetadata s4 instance_ MetadataType.Instance_ReceptionDate now
  let s6 := setMetadata s5 instance_ MetadataType.Instance_RemoteAet remoteAet
  let s7 :=
    match testAndGetValue x DICOM_TAG_INSTANCE_NUMBER <|>
          testAndGetValue x DICOM_TAG_IMAGE_INDEX with
    | some v => setMetadata s6 instance_ MetadataType.Instance_IndexInSeries v
    | none => s6
  let s8 :=
    if isNewSeries then
      match testAndGetValue x DICOM_TAG_NUMBER_OF_SLICES <|>
            testAndGetValue x DICOM_TAG_IMAGES_IN_ACQUISITION <|>
            testAndGetValue x DICOM_TAG_CARDIAC_NUMBER_OF_IMAGES with
      | some v => setMetadata s7 series MetadataType.Series_ExpectedNumberOfInstances v
      | none => s7
    else s7
  if getSeriesStatusState s8 series = SeriesStatus.Complete then
    logChange s8 ChangeType.CompletedSeries series ResourceType.Series
  else s8

/-- ServerIndex::Store.  `now` stands for Toolbox::GetNowIsoString().  If a
resource with public id HashInstance(x) exists, returns AlreadyStored with
the state untouched (the transaction is rolled back before any mutation).
Otherwise creates the instance, restores the hierarchy, registers the
attachments and metadata, logs CompletedSeries when the series became
complete, and returns Success. -/
def store (s : IndexState) (x : DicomMap) (atts : List Attachment)
    (remoteAet now : String) : StoreStatus × IndexState :=
  match lookupResource s (hashInstance x) with
  | some _ => (StoreStatus.AlreadyStored, s)
  | none =>
    let p0 := createResource s (hashInstance x) ResourceType.Instance
    let instance_ := p0.1
    let s2 := setMainDicomTags p0.2 instance_ (extractInstanceInformation x)
    let walk := storeHierarchy s2 x instance_
    (StoreStatus.Success,
     storeFinish x atts remoteAet now instance_ walk.1 walk.2.1 walk.2.2)

/-! ## Delete listener (ServerIndex.cpp, lines 55-164) -/

/-- The state of Internals::ServerIndexListener relevant to the
remaining-ancestor computation. -/
structure ListenerState where
  hasRemainingLevel : Bool
  remainingType : ResourceType
  remainingPublicId : String
deriving DecidableEq, Repr

/-- ServerIndexListener::Reset (the record fields are left untouched, only
the flag is cleared; fresh construction also starts with the flag down). -/
def listenerReset : ListenerState :=
  ⟨false, ResourceType.Patient, ""⟩

/-- ServerIndexListener::SignalRemainingAncestor: record the first callback;
afterwards replace the record only when the new kind is strictly smaller in
the enumeration order. -/
def signalRemainingAncestor (st : ListenerState) (parentType : ResourceType)
    (publicId : String) : ListenerState :=
  if st.hasRemainingLevel then
    if kindValue parentType < kindValue st.remainingType then ⟨true, parentType, publicId⟩
    else st
  else ⟨true, parentType, publicId⟩

/-- One callback delivered to the listener. -/
def listenerStep (st : ListenerState) (c : ResourceType × String) : ListenerState :=
  signalRemainingAncestor st c.1 c.2

/-- The listener state after a reset followed by the stream of
signal_remaining_ancestor callbacks fired during one DeleteResource call. -/
def runCallbacks (cs : List (ResourceType × String)) : ListenerState :=
  cs.foldl listenerStep listenerReset

/-- The RemainingAncestor reported by ServerIndex::DeleteResource, as a
function of the callback stream: the recorded (kind, public id) when the
listener holds one, null otherwise. -/
def remainingAncestor (cs : List (ResourceType × String)) : Option (ResourceType × String) :=
  let st := runCallbacks cs
  if st.hasRemainingLevel then some (st.remainingType, st.remainingPublicId) else none

/-! ## REST modify/anonymize glue
(src/OrthancServer/OrthancRestApi/OrthancRestAnonymizeModify.cpp) -/

/-- Modelled from the spec: the replacements field of DicomModification, a
tag-to-value map (DicomModification is not part of the sources; §4.3 of the
spec describes its configuration).  Newest entry wins on lookup, as for a
C++ map updated in place. -/
def Replacements := List (DicomTag × String)
deriving DecidableEq, Repr

/-- Modelled from the spec: DicomModification::Replace as a map update. -/
def setReplacement (r : Replacements) (t : DicomTag) (v : String) : Replacements :=
  (t, v) :: r

/-- Modelled from the spec: DicomModification::GetReplacement. -/
def getReplacement (r : Replacements) (t : DicomTag) : Option String :=
  (r.find? (fun p => p.1 = t)).map (fun p => p.2)

/-- Modelled from the spec: DicomModification::IsReplaced. -/
def isReplaced (r : Replacements) (t : DicomTag) : Bool :=
  (getReplacement r t).isSome

/-- Modelled from the spec: SetupAnonymization populates the replacements
with a standards-compliant default set, in particular a new random
PatientName and PatientID; the two random draws are passed in as
parameters.  Other defaulted tags are irrelevant to the verified claims. -/
def setupAnonymization (randomName randomId : String) : Replacements :=
  [(DICOM_TAG_PATIENT_NAME, randomName), (DICOM_TAG_PATIENT_ID, randomId)]

/-- Application of the Replace object of a request to the replacement map
(ParseReplacements iterating target.Replace over the JSON members). -/
def applyUserReplacements (user : List (DicomTag × String)) (r : Replacements) :
    Replacements :=
  user.foldl (fun acc p => setReplacement acc p.1 p.2) r

/-- ParseAnonymizationRequest restricted to the replacement map: set up the
anonymization defaults, remember the random PatientName, apply the Replace
object of the request, then overwrite the PatientName replacement with
"Anonymized" + increment_global_sequence(AnonymizationSequence) when it
still equals the remembered random value. -/
def parseAnonymizationReplacements (randomName randomId : String) (seq : Nat)
    (user : List (DicomTag × String)) : Replacements :=
  let target := setupAnonymization randomName randomId
  let patientName := (getReplacement target DICOM_TAG_PATIENT_NAME).getD ""
  let target2 := applyUserReplacements user target
  if isReplaced target2 DICOM_TAG_PATIENT_NAME ∧
     getReplacement target2 DICOM_TAG_PATIENT_NAME = some patientName then
    setReplacement target2 DICOM_TAG_PATIENT_NAME ("Anonymized" ++ toString seq)
  else target2

/-- The four public ids computed by a DicomInstanceHasher. -/
structure Hashes where
  patient : String
  study : String
  series : String
  instanceId : String
deriving DecidableEq, Repr

/-- The hash of `h` at a hierarchy level. -/
def hashAt : ResourceType → Hashes → String
  | ResourceType.Patient, h => h.patient
  | ResourceType.Study, h => h.study
  | ResourceType.Series, h => h.series
  | ResourceType.Instance, h => h.instanceId

/-- The metadata entries attached to the DicomInstanceToStore in the
per-instance loop of AnonymizeOrModifyResource: one ancestor entry per
level whose hash differs between the original and the modified instance,
plus the unconditional instance-level entry carrying the original instance
id. -/
def prepareMetadata (mt : MetadataType) (orig modified : Hashes) (instanceId : String) :
    List (ResourceType × MetadataType × String) :=
  (if orig.series ≠ modified.series
   then [(ResourceType.Series, mt, orig.series)] else []) ++
  (if orig.study ≠ modified.study
   then [(ResourceType.Study, mt, orig.study)] else []) ++
  (if orig.patient ≠ modified.patient
   then [(ResourceType.Patient, mt, orig.patient)] else []) ++
  [(ResourceType.Instance, mt, instanceId)]

/-- What happens when the per-instance loop processes one child instance:
either the DICOM cache lock fails (the instance was deleted in between), or
the instance is locked, yielding the original and modified hashers and the
status of the subsequent store. -/
inductive InstanceOutcome where
  | lockFail
  | locked (orig modified : Hashes) (storeResult : StoreStatus)
deriving DecidableEq, Repr

/-- The JSON object built for the first successfully processed instance. -/
structure ModifyAnswer where
  answerType : String
  id : String
  path : String
  patientId : String
deriving DecidableEq, Repr

/-- EnumerationToString on resource types. -/
def resourceTypeToString : ResourceType → String
  | ResourceType.Patient => "Patient"
  | ResourceType.Study => "Study"
  | ResourceType.Series => "Series"
  | ResourceType.Instance => "Instance"

/-- GetBasePath. -/
def getBasePath : ResourceType → String → String
  | ResourceType.Patient, id => "/patients/" ++ id
  | ResourceType.Study, id => "/studies/" ++ id
  | ResourceType.Series, id => "/series/" ++ id
  | ResourceType.Instance, id => "/instances/" ++ id

/-- The new public id reported for the requested level (the default switch
branch throws InternalError, rendered as none). -/
def newIdFor : ResourceType → Hashes → Option String
  | ResourceType.Series, h => some h.series
  | ResourceType.Study, h => some h.study
  | ResourceType.Patient, h => some h.patient
  | ResourceType.Instance, _ => none

/-- A record of one store attempted by the loop: the original instance id,
the modified hashes and the metadata attached to the DicomInstanceToStore. -/
structure StoreCall where
  originalId : String
  modified : Hashes
  metadata : List (ResourceType × MetadataType × String)
deriving DecidableEq, Repr

/-- The outcome of AnonymizeOrModifyResource: the argument of the final
AnswerJson call when one happens (none when the handler returns without
answering; the inner option is the first-instance object, none standing for
the initial empty JSON object), and the stores attempted. -/
structure ResourceLoopResult where
  answer : Option (Option ModifyAnswer)
  stored : List StoreCall
deriving DecidableEq, Repr

/-- The per-instance loop of AnonymizeOrModifyResource.  A lock failure is
swallowed and the loop continues.  Otherwise the ModifiedFrom/AnonymizedFrom
metadata is prepared and the modified instance is stored; a store result
other than Success returns at once, without AnswerJson.  For the first
stored instance the response JSON is built (an unexpected requested level
throws InternalError, so no answer).  After the loop, AnswerJson is
called. -/
def resourceLoop (mt : MetadataType) (rt : ResourceType) :
    List (String × InstanceOutcome) → Bool → Option ModifyAnswer → List StoreCall →
    ResourceLoopResult
  | [], _, result, acc => ⟨some result, acc⟩
  | (_, InstanceOutcome.lockFail) :: rest, isFirst, result, acc =>
    resourceLoop mt rt rest isFirst result acc
  | (id, InstanceOutcome.locked orig modified status) :: rest, isFirst, result, acc =>
    let meta := prepareMetadata mt orig modified id
    let acc2 := acc ++ [⟨id, modified, meta⟩]
    if status ≠ StoreStatus.Success then ⟨none, acc2⟩
    else if isFirst then
      match newIdFor rt modified with
      | none => ⟨none, acc2⟩
      | some newId =>
        resourceLoop mt rt rest false
          (some ⟨resourceTypeToString rt, newId, getBasePath rt newId, modified.patient⟩) acc2
    else resourceLoop mt rt rest false result acc2

/-- AnonymizeOrModifyResource: fetch the child instances of the target; an
empty list returns at once (no loop, no store, no AnswerJson); otherwise
run the per-instance loop. -/
def anonymizeOrModifyResource (mt : MetadataType) (rt : ResourceType)
    (instances : List (String × InstanceOutcome)) : ResourceLoopResult :=
  if instances.isEmpty then ⟨none, []⟩
  else resourceLoop mt rt instances true none []

/-! ## Theorems: delete listener -/

theorem listenerStep_hasRemaining (st : ListenerState) (c : ResourceType × String) :
    (listenerStep st c).hasRemainingLevel = true := by
  simp only [listenerStep, signalRemainingAncestor]
  split_ifs <;> simp_all

theorem listenerStep_kind_le (st : ListenerState) (c : ResourceType × String) :
    kindValue (listenerStep st c).remainingType ≤ kindValue c.1 := by
  simp only [listenerStep, signalRemainingAncestor]
  split_ifs with h1 h2
  · exact le_refl _
  · exact not_lt.mp h2
  · exact le_refl _

theorem listenerStep_kind_le_self (st : ListenerState) (c : ResourceType × String)
    (h : st.hasRemainingLevel = true) :
    kindValue (listenerStep st c).remainingType ≤ kindValue st.remainingType := by
  simp only [listenerStep, signalRemainingAncestor]
  split_ifs with h1
  · exact le_of_lt h1
  · exact le_refl _

theorem listenerStep_record (st : ListenerState) (c : ResourceType × String) :
    ((listenerStep st c).remainingType, (listenerStep st c).remainingPublicId) = c ∨
      (st.hasRemainingLevel = true ∧
        (listenerStep st c).remainingType = st.remainingType ∧
        (listenerStep st c).remainingPublicId = st.remainingPublicId) := by
  simp only [listenerStep, signalRemainingAncestor]
  split_ifs with h1 h2
  · exact Or.inl rfl
  · exact Or.inr ⟨h1, rfl, rfl⟩
  · exact Or.inl rfl

theorem listenerFold_spec (cs : List (ResourceType × String)) (st : ListenerState) :
    ((cs.foldl listenerStep st).hasRemainingLevel = false ↔
      st.hasRemainingLevel = false ∧ cs = []) ∧
    ((cs.foldl listenerStep st).hasRemainingLevel = true →
      ((st.hasRemainingLevel = true ∧
          (cs.foldl listenerStep st).remainingType = st.remainingType ∧
          (cs.foldl listenerStep st).remainingPublicId = st.remainingPublicId) ∨
        ((cs.foldl listenerStep st).remainingType,
         (cs.foldl listenerStep st).remainingPublicId) ∈ cs) ∧
      (st.hasRemainingLevel = true →
        kindValue (cs.foldl listenerStep st).remainingType ≤ kindValue st.remainingType) ∧
      (∀ c ∈ cs, kindValue (cs.foldl listenerStep st).remainingType ≤ kindValue c.1)) := by
  induction cs generalizing st with
  | nil =>
    constructor
    · simp
    · intro htrue
      refine ⟨Or.inl ⟨htrue, rfl, rfl⟩, fun _ => le_refl _, fun c hc => absurd hc (by simp)⟩
  | cons a cs ih =>
    rw [List.foldl_cons]
    constructor
    · constructor
      · intro hfalse
        have h1 := ((ih (listenerStep st a)).1.mp hfalse).1
        rw [listenerStep_hasRemaining st a] at h1
        cases h1
      · rintro ⟨-, h2⟩
        cases h2
    · intro htrue
      obtain ⟨hmem, hmono, hall⟩ := (ih (listenerStep st a)).2 htrue
      have hm1 := hmono (listenerStep_hasRemaining st a)
      refine ⟨?_, ?_, ?_⟩
      · rcases hmem with ⟨-, hT, hP⟩ | hmem
        · rcases listenerStep_record st a with hr | ⟨hs, hT2, hP2⟩
          · right
            have heq : ((cs.foldl listenerStep (listenerStep st a)).remainingType,
                (cs.foldl listenerStep (listenerStep st a)).remainingPublicId) = a := by
              rw [hT, hP]
              exact hr
            rw [heq]
            exact List.mem_cons_self _ _
          · exact Or.inl ⟨hs, hT.trans hT2, hP.trans hP2⟩
        · exact Or.inr (List.mem_cons_of_mem _ hmem)
      · intro hst
        exact le_trans hm1 (listenerStep_kind_le_self st a hst)
      · intro c hc
        rcases List.mem_cons.mp hc with rfl | hc
        · exact le_trans hm1 (listenerStep_kind_le st c)
        · exact hall c hc

/-- C3: over any stream of signal_remaining_ancestor callbacks fired by one
delete, the RemainingAncestor reported is null exactly when no callback
occurred, and otherwise is one of the callback records, of minimal kind
under the order Patient < Study < Series < Instance. -/
theorem deleteResource_remainingAncestor (cs : List (ResourceType × String)) :
    (remainingAncestor cs = none ↔ cs = []) ∧
    (∀ r, remainingAncestor cs = some r →
      r ∈ cs ∧ ∀ c ∈ cs, kindValue r.1 ≤ kindValue c.1) := by
  have h := listenerFold_spec cs listenerReset
  constructor
  · constructor
    · intro h0
      have hfalse : (runCallbacks cs).hasRemainingLevel = false := by
        by_contra hx
        rw [Bool.not_eq_false] at hx
        simp only [remainingAncestor, hx, if_true] at h0
        cases h0
      exact (h.1.mp hfalse).2
    · rintro rfl
      rfl
  · intro r hr
    have htrue : (runCallbacks cs).hasRemainingLevel = true := by
      by_contra hx
      rw [Bool.not_eq_true] at hx
      simp only [remainingAncestor, hx, if_false] at hr
      cases hr
    have hsome : r = ((runCallbacks cs).remainingType, (runCallbacks cs).remainingPublicId) := by
      simp only [remainingAncestor, htrue, if_true] at hr
      exact (Option.some_injective _ hr).symm
    obtain ⟨hmem, -, hall⟩ := h.2 htrue
    rcases hmem with ⟨hreset, -, -⟩ | hmem
    · cases hreset
    · exact ⟨hsome ▸ hmem, fun c hc => by rw [hsome]; exact hall c hc⟩

/-- C3 witness: for the stream Series, Study, Instance the reported
remaining ancestor is the Study record, which is in the stream and of
minimal kind. -/
theorem deleteResource_remainingAncestor_witness :
    remainingAncestor
        [(ResourceType.Series, "a"), (ResourceType.Study, "b"), (ResourceType.Instance, "c")]
      = some (ResourceType.Study, "b") ∧
    (ResourceType.Study, "b") ∈
      [(ResourceType.Series, "a"), (ResourceType.Study, "b"), (ResourceType.Instance, "c")] ∧
    (∀ c ∈ [(ResourceType.Series, "a"), (ResourceType.Study, "b"),
            (ResourceType.Instance, "c")],
      kindValue ResourceType.Study ≤ kindValue c.1) ∧
    remainingAncestor ([] : List (ResourceType × String)) = none := by
  have h := (deleteResource_remainingAncestor
    [(ResourceType.Series, "a"), (ResourceType.Study, "b"),
     (ResourceType.Instance, "c")]).2 (ResourceType.Study, "b") rfl
  exact ⟨rfl, h.1, h.2, (deleteResource_remainingAncestor []).1.mpr rfl⟩

/-! ## Theorems: HttpOutput state machine -/

theorem sendBody_leaves_writingHeader (sm : StateMachine) (len : Nat)
    (h : sm.state = HState.WritingHeader) :
    (sendBody sm len).sm.state ≠ HState.WritingHeader := by
  simp only [sendBody, h]
  split_ifs <;> simp_all

/-- C4: the header-phase operations set_status, set_content_length,
add_header, clear_headers and set_cookie succeed in the WritingHeader state
and fail with BadSequenceOfCalls in every other state; in particular
add_header after a first send_body fails with BadSequenceOfCalls. -/
theorem httpOutput_header_phase_ops (sm : StateMachine) (code len : Nat) (k v : String) :
    (sm.state = HState.WritingHeader →
      (setHttpStatus sm code).2 = none ∧
      (setContentLength sm len).2 = none ∧
      (addHeader sm k v).2 = none ∧
      (clearHeaders sm).2 = none ∧
      (setCookie sm k v).2 = none) ∧
    (sm.state ≠ HState.WritingHeader →
      (setHttpStatus sm code).2 = some ErrorCode.BadSequenceOfCalls ∧
      (setContentLength sm len).2 = some ErrorCode.BadSequenceOfCalls ∧
      (addHeader sm k v).2 = some ErrorCode.BadSequenceOfCalls ∧
      (clearHeaders sm).2 = some ErrorCode.BadSequenceOfCalls ∧
      (setCookie sm k v).2 = some ErrorCode.BadSequenceOfCalls) ∧
    (sm.state = HState.WritingHeader →
      (addHeader (sendBody sm len).sm k v).2 = some ErrorCode.BadSequenceOfCalls) := by
  refine ⟨?_, ?_, ?_⟩
  · intro h
    simp [setHttpStatus, setContentLength, addHeader, clearHeaders, setCookie, h]
  · intro h
    simp [setHttpStatus, setContentLength, addHeader, clearHeaders, setCookie, h]
  · intro h
    simp [addHeader, sendBody_leaves_writingHeader sm len h]

/-- C4 witness: on a fresh response, add_header succeeds; after a first
send_body it fails with BadSequenceOfCalls; on a machine already past the
header phase, set_status fails as well. -/
theorem httpOutput_header_phase_ops_witness :
    (StateMachine.init true).state = HState.WritingHeader ∧
    (addHeader (StateMachine.init true) "ETag" "x").2 = none ∧
    (addHeader (sendBody (StateMachine.init true) 3).sm "ETag" "x").2 =
      some ErrorCode.BadSequenceOfCalls ∧
    (setHttpStatus (sendBody (StateMachine.init true) 3).sm 404).2 =
      some ErrorCode.BadSequenceOfCalls := by
  refine ⟨rfl, ?_, ?_, ?_⟩
  · exact ((httpOutput_header_phase_ops (StateMachine.init true) 404 3 "ETag" "x").1 rfl).2.2.1
  · exact (httpOutput_header_phase_ops (StateMachine.init true) 404 3 "ETag" "x").2.2 rfl
  · exact ((httpOutput_header_phase_ops (sendBody (StateMachine.init true) 3).sm
        404 3 "ETag" "x").2.1 (by decide)).1

/-- C5: with a declared content length and status 200 (or once in the body
phase with a surviving declared length), a send_body whose bytes would
overflow the declared length fails with BadSequenceOfCalls, and a non-empty
send_body after Done fails with BadSequenceOfCalls. -/
theorem httpOutput_sendBody_guard (sm : StateMachine) (len : Nat) :
    (sm.state = HState.WritingHeader → sm.status = 200 → sm.hasContentLength = true →
      sm.contentLength < sm.contentPosition + len →
      (sendBody sm len).error = some ErrorCode.BadSequenceOfCalls) ∧
    (sm.state = HState.WritingBody → sm.hasContentLength = true →
      sm.contentLength < sm.contentPosition + len →
      (sendBody sm len).error = some ErrorCode.BadSequenceOfCalls) ∧
    (sm.state = HState.Done → len ≠ 0 →
      (sendBody sm len).error = some ErrorCode.BadSequenceOfCalls) := by
  refine ⟨?_, ?_, ?_⟩
  · intro h hst hcl hover
    simp [sendBody, h, hst, hcl, hover]
  · intro h hcl hover
    simp [sendBody, h, hcl, hover]
  · intro h hlen
    simp [sendBody, h, hlen]

/-- C5 witness: set_content_length(10) then send_body of 12 bytes fails with
BadSequenceOfCalls, and a 1-byte send_body after a completed single-shot
body (state Done) fails with BadSequenceOfCalls. -/
theorem httpOutput_sendBody_guard_witness :
    (sendBody (setContentLength (StateMachine.init false) 10).1 12).error =
      some ErrorCode.BadSequenceOfCalls ∧
    (sendBody (sendBody (StateMachine.init false) 4).sm 1).error =
      some ErrorCode.BadSequenceOfCalls := by
  constructor
  · exact (httpOutput_sendBody_guard (setContentLength (StateMachine.init false) 10).1 12).1
      rfl rfl rfl (by decide)
  · exact (httpOutput_sendBody_guard (sendBody (StateMachine.init false) 4).sm 1).2.2
      (by decide) (by decide)

/-- C6: the Content-Length written in the header block by the first
send_body equals the declared length when one was set and the status is
200, and the length of the first body chunk otherwise (a non-200 status
discards the declared length). -/
theorem httpOutput_contentLength_emitted (sm : StateMachine) (len : Nat) :
    sm.state = HState.WritingHeader →
    (sendBody sm len).header =
      some (if sm.status = 200 ∧ sm.hasContentLength = true then sm.contentLength else len) := by
  intro h
  simp only [sendBody, h]
  split_ifs <;> simp_all

/-- C6 witness: with a declared length 42 and status 200 the header carries
42; with status 404 and the same declared length the header carries the
actual first-chunk length 7. -/
theorem httpOutput_contentLength_emitted_witness :
    (sendBody (setContentLength (StateMachine.init false) 42).1 7).header = some 42 ∧
    (sendBody (setContentLength ((setHttpStatus (StateMachine.init false) 404).1) 42).1 7).header
      = some 7 := by
  constructor
  · have h := httpOutput_contentLength_emitted
      (setContentLength (StateMachine.init false) 42).1 7 rfl
    simpa using h
  · have h := httpOutput_contentLength_emitted
      (setContentLength ((setHttpStatus (StateMachine.init false) 404).1) 42).1 7 rfl
    simpa using h

/-! ## Theorems: REST modify/anonymize glue -/

/-- C8: in the per-instance loop, an ancestor-level entry (Series, Study or
Patient) appears in the metadata attached to the stored instance exactly
when the hash of the original instance at that level differs from the hash
of the modified instance at that level, and it carries the original hash. -/
theorem prepareMetadata_ancestor_iff (mt : MetadataType) (orig modified : Hashes)
    (instanceId : String) (level : ResourceType) (v : String) :
    level = ResourceType.Series ∨ level = ResourceType.Study ∨ level = ResourceType.Patient →
    ((level, mt, v) ∈ prepareMetadata mt orig modified instanceId ↔
      v = hashAt level orig ∧ hashAt level orig ≠ hashAt level modified) := by
  rintro (rfl | rfl | rfl) <;>
    (simp only [prepareMetadata, hashAt, List.mem_append, List.mem_singleton] ;
     split_ifs <;> simp_all)

/-- C8 witness: with only the series hash changed, the Series entry carrying
the original series hash is attached and the Study entry is not. -/
theorem prepareMetadata_ancestor_iff_witness :
    ((ResourceType.Series, MetadataType.ModifiedFrom, "se") ∈
      prepareMetadata MetadataType.ModifiedFrom ⟨"p", "st", "se", "i"⟩
        ⟨"p", "st", "se2", "i2"⟩ "i") ∧
    ¬ ((ResourceType.Study, MetadataType.ModifiedFrom, "st") ∈
      prepareMetadata MetadataType.ModifiedFrom ⟨"p", "st", "se", "i"⟩
        ⟨"p", "st", "se2", "i2"⟩ "i") := by
  constructor
  · exact (prepareMetadata_ancestor_iff MetadataType.ModifiedFrom ⟨"p", "st", "se", "i"⟩
      ⟨"p", "st", "se2", "i2"⟩ "i" ResourceType.Series "se" (Or.inl rfl)).mpr
      ⟨rfl, by decide⟩
  · intro hmem
    exact ((prepareMetadata_ancestor_iff MetadataType.ModifiedFrom ⟨"p", "st", "se", "i"⟩
      ⟨"p", "st", "se2", "i2"⟩ "i" ResourceType.Study "st"
      (Or.inr (Or.inl rfl))).mp hmem).2 rfl

/-- C9: in the per-instance loop, a lock failure on one child instance is
swallowed (the loop result is that of the remaining instances, with
unchanged accumulator), whereas a store result other than Success stops at
once: no further instance is processed and the handler returns without
answering. -/
theorem resourceLoop_error_policy (mt : MetadataType) (rt : ResourceType)
    (id : String) (rest : List (String × InstanceOutcome)) (isFirst : Bool)
    (result : Option ModifyAnswer) (acc : List StoreCall)
    (orig modified : Hashes) (status : StoreStatus) :
    (resourceLoop mt rt ((id, InstanceOutcome.lockFail) :: rest) isFirst result acc =
      resourceLoop mt rt rest isFirst result acc) ∧
    (status ≠ StoreStatus.Success →
      resourceLoop mt rt ((id, InstanceOutcome.locked orig modified status) :: rest)
          isFirst result acc =
        ⟨none, acc ++ [⟨id, modified, prepareMetadata mt orig modified id⟩]⟩) := by
  constructor
  · rfl
  · intro h
    simp [resourceLoop, h]

/-- C9 witness: a lock failure on the first of two instances leaves the loop
identical to the loop over the second alone, and a Failure store on the
first instance aborts with no answer even though another instance remains. -/
theorem resourceLoop_error_policy_witness :
    (resourceLoop MetadataType.AnonymizedFrom ResourceType.Series
        [("i1", InstanceOutcome.lockFail), ("i2", InstanceOutcome.lockFail)] true none [] =
      resourceLoop MetadataType.AnonymizedFrom ResourceType.Series
        [("i2", InstanceOutcome.lockFail)] true none []) ∧
    (resourceLoop MetadataType.AnonymizedFrom ResourceType.Series
        [("i1", InstanceOutcome.locked ⟨"p", "st", "se", "i1"⟩ ⟨"p2", "st2", "se2", "i9"⟩
            StoreStatus.Failure),
         ("i2", InstanceOutcome.lockFail)] true none [] =
      ⟨none, [⟨"i1", ⟨"p2", "st2", "se2", "i9"⟩,
        prepareMetadata MetadataType.AnonymizedFrom ⟨"p", "st", "se", "i1"⟩
          ⟨"p2", "st2", "se2", "i9"⟩ "i1"⟩]⟩) := by
  constructor
  · exact (resourceLoop_error_policy MetadataType.AnonymizedFrom ResourceType.Series
      "i1" [("i2", InstanceOutcome.lockFail)] true none []
      ⟨"p", "st", "se", "i1"⟩ ⟨"p2", "st2", "se2", "i9"⟩ StoreStatus.Failure).1
  · exact (resourceLoop_error_policy MetadataType.AnonymizedFrom ResourceType.Series
      "i1" [("i2", InstanceOutcome.lockFail)] true none []
      ⟨"p", "st", "se", "i1"⟩ ⟨"p2", "st2", "se2", "i9"⟩ StoreStatus.Failure).2
      (by decide)

/-- C10: a resource-level modify or anonymize whose target has no child
instance returns before the per-instance loop: no AnswerJson, no store, no
metadata. -/
theorem anonymizeOrModifyResource_empty (mt : MetadataType) (rt : ResourceType) :
    anonymizeOrModifyResource mt rt [] = ⟨none, []⟩ :=
  rfl

theorem getReplacement_set_same (r : Replacements) (t : DicomTag) (v : String) :
    getReplacement (setReplacement r t v) t = some v := by
  simp [getReplacement, setReplacement]

theorem applyUserReplacements_not_touched (user : List (DicomTag × String))
    (r : Replacements) (t : DicomTag) (h : ∀ p ∈ user, p.1 ≠ t) :
    getReplacement (applyUserReplacements user r) t = getReplacement r t := by
  induction user generalizing r with
  | nil => rfl
  | cons a user ih =>
    have ha : a.1 ≠ t := h a (List.mem_cons_self _ _)
    have hrest := ih (setReplacement r a.1 a.2) (fun p hp => h p (List.mem_cons_of_mem _ hp))
    rw [applyUserReplacements, List.foldl_cons]
    rw [applyUserReplacements] at hrest
    rw [hrest]
    simp [getReplacement, setReplacement, ha]

/-- C7 counterexample: a request whose Replace object sets PatientName to
exactly the random name produced by SetupAnonymization does not keep the
user value: the replacement becomes the generated Anonymized name. -/
theorem parseAnonymization_patientName_counterexample :
    getReplacement (parseAnonymizationReplacements "rnd" "rid" 7
        [(DICOM_TAG_PATIENT_NAME, "rnd")]) DICOM_TAG_PATIENT_NAME = some "Anonymized7" ∧
    some "Anonymized7" ≠ some "rnd" := by
  constructor
  · rfl
  · simp

/-- C7 (amended): when the Replace object does not override PatientName, the
configuration replaces PatientName with "Anonymized" concatenated with the
incremented AnonymizationSequence value; a user-supplied PatientName value
is kept exactly when it differs from the random name produced by
SetupAnonymization, a user value equal to that random name being treated as
absent and overwritten with the generated name. -/
theorem parseAnonymization_patientName (randomName randomId : String) (seq : Nat)
    (user : List (DicomTag × String)) :
    ((∀ p ∈ user, p.1 ≠ DICOM_TAG_PATIENT_NAME) →
      getReplacement (parseAnonymizationReplacements randomName randomId seq user)
          DICOM_TAG_PATIENT_NAME = some ("Anonymized" ++ toString seq)) ∧
    (∀ v, getReplacement (applyUserReplacements user (setupAnonymization randomName randomId))
          DICOM_TAG_PATIENT_NAME = some v →
      (v ≠ randomName →
        getReplacement (parseAnonymizationReplacements randomName randomId seq user)
            DICOM_TAG_PATIENT_NAME = some v) ∧
      (v = randomName →
        getReplacement (parseAnonymizationReplacements randomName randomId seq user)
            DICOM_TAG_PATIENT_NAME = some ("Anonymized" ++ toString seq))) := by
  have hsetup : getReplacement (setupAnonymization randomName randomId)
      DICOM_TAG_PATIENT_NAME = some randomName := by
    simp [getReplacement, setupAnonymization]
  constructor
  · intro h
    have happ := applyUserReplacements_not_touched user
      (setupAnonymization randomName randomId) DICOM_TAG_PATIENT_NAME h
    rw [hsetup] at happ
    simp only [parseAnonymizationReplacements, hsetup, Option.getD_some, isReplaced, happ,
      Option.isSome_some, if_pos, and_self, true_and]
    exact getReplacement_set_same _ _ _
  · intro v hv
    constructor
    · intro hne
      have hcond : ¬ (isReplaced (applyUserReplacements user
            (setupAnonymization randomName randomId)) DICOM_TAG_PATIENT_NAME = true ∧
          getReplacement (applyUserReplacements user (setupAnonymization randomName randomId))
            DICOM_TAG_PATIENT_NAME =
            some ((getReplacement (setupAnonymization randomName randomId)
              DICOM_TAG_PATIENT_NAME).getD "")) := by
        rintro ⟨-, hc⟩
        rw [hv, hsetup] at hc
        exact hne (Option.some_injective _ hc)
      simp only [parseAnonymizationReplacements]
      rw [if_neg hcond]
      exact hv
    · intro heq
      have hcond : isReplaced (applyUserReplacements user
            (setupAnonymization randomName randomId)) DICOM_TAG_PATIENT_NAME = true ∧
          getReplacement (applyUserReplacements user (setupAnonymization randomName randomId))
            DICOM_TAG_PATIENT_NAME =
            some ((getReplacement (setupAnonymization randomName randomId)
              DICOM_TAG_PATIENT_NAME).getD "") := by
        constructor
        · rw [isReplaced, hv]
          rfl
        · rw [hv, hsetup, heq]
          rfl
      simp only [parseAnonymizationReplacements]
      rw [if_pos hcond]
      exact getReplacement_set_same _ _ _

/-- C7 witness: with no user override the PatientName replacement is
"Anonymized3"; with the user override "Alice" (different from the random
name "rnd") the user value is kept. -/
theorem parseAnonymization_patientName_witness :
    getReplacement (parseAnonymizationReplacements "rnd" "rid" 3 [])
        DICOM_TAG_PATIENT_NAME = some "Anonymized3" ∧
    getReplacement (parseAnonymizationReplacements "rnd" "rid" 3
        [(DICOM_TAG_PATIENT_NAME, "Alice")]) DICOM_TAG_PATIENT_NAME = some "Alice" := by
  constructor
  · have h := (parseAnonymization_patientName "rnd" "rid" 3 []).1 (by simp)
    simpa using h
  · have h := ((parseAnonymization_patientName "rnd" "rid" 3
        [(DICOM_TAG_PATIENT_NAME, "Alice")]).2 "Alice" rfl).1 (by simp)
    exact h

/-! ## Theorems: GetSeriesStatus -/

/-- GetSeriesStatus as the spec sentence literally reads, with the Unknown
condition quantified over all children and taking priority over the
Inconsistent condition: Unknown when the expected-count metadata or any
child's index metadata is missing or non-numeric; else Inconsistent when
some index is out of range or repeated; else Complete when the number of
distinct indices equals the expected count; else Missing. -/
def claimedSeriesStatus (expectedMeta : Option String) (childMeta : List (Option String)) :
    SeriesStatus :=
  if parseCount expectedMeta = none ∨ ∃ c ∈ childMeta, parseCount c = none then
    SeriesStatus.Unknown
  else
    match parseCount expectedMeta with
    | none => SeriesStatus.Unknown
    | some expected =>
      if (∃ i ∈ childMeta.filterMap parseCount, i ≤ 0 ∨ expected < i) ∨
          ¬ (childMeta.filterMap parseCount).Nodup then SeriesStatus.Inconsistent
      else if (childMeta.filterMap parseCount).dedup.length = expected then
        SeriesStatus.Complete
      else SeriesStatus.Missing

/-- C2 counterexample: with expected count 1 and children whose
Instance_IndexInSeries metadata reads "2" then "abc", the claim (Unknown
has priority: a child is non-numeric) predicts Unknown, while the code
stops at the first child, whose index 2 exceeds the expected count, and
returns Inconsistent. -/
theorem getSeriesStatus_counterexample :
    claimedSeriesStatus (some "1") [some "2", some "abc"] = SeriesStatus.Unknown ∧
    getSeriesStatus (some "1") [some "2", some "abc"] = SeriesStatus.Inconsistent ∧
    SeriesStatus.Inconsistent ≠ SeriesStatus.Unknown := by
  refine ⟨by decide, by decide, by simp⟩

theorem seriesStatusLoop_allOk (expected : Nat) (l : List (Option String)) :
    ∀ seen : List Nat,
      (∀ c ∈ l, ∃ v, parseCount c = some v ∧ 1 ≤ v ∧ v ≤ expected) →
      (l.filterMap parseCount).Nodup →
      (∀ v ∈ l.filterMap parseCount, v ∉ seen) →
      seriesStatusLoop expected l seen =
        (if seen.length + l.length = expected then SeriesStatus.Complete
         else SeriesStatus.Missing) := by
  induction l with
  | nil =>
    intro seen _ _ _
    simp [seriesStatusLoop]
  | cons c rest ih =>
    intro seen hall hnodup hdisj
    obtain ⟨v, hv, hv1, hv2⟩ := hall c (List.mem_cons_self _ _)
    have hfm : List.filterMap parseCount (c :: rest) = v :: List.filterMap parseCount rest := by
      simp [List.filterMap_cons, hv]
    rw [hfm] at hnodup hdisj
    have hrange : ¬ (v ≤ 0 ∨ expected < v) := by
      push_neg
      exact ⟨hv1, hv2⟩
    have hseen : v ∉ seen := hdisj v (List.mem_cons_self _ _)
    have hstep : seriesStatusLoop expected (c :: rest) seen =
        seriesStatusLoop expected rest (v :: seen) := by
      simp only [seriesStatusLoop, hv]
      rw [if_neg hrange, if_neg hseen]
    rw [hstep]
    rw [ih (v :: seen) (fun c2 hc2 => hall c2 (List.mem_cons_of_mem _ hc2))
      (List.Nodup.of_cons hnodup)
      (fun w hw => by
        simp only [List.mem_cons, not_or]
        exact ⟨fun hwv => (List.nodup_cons.mp hnodup).1 (hwv ▸ hw),
               hdisj w (List.mem_cons_of_mem _ hw)⟩)]
    have hlen : (v :: seen).length + rest.length = seen.length + (c :: rest).length := by
      simp only [List.length_cons]
      omega
    rw [hlen]

theorem seriesStatusLoop_unknown (expected : Nat) (l : List (Option String)) :
    ∀ seen : List Nat,
      (∃ c ∈ l, parseCount c = none) →
      (∀ c ∈ l, ∀ v, parseCount c = some v → 1 ≤ v ∧ v ≤ expected) →
      (l.filterMap parseCount).Nodup →
      (∀ v ∈ l.filterMap parseCount, v ∉ seen) →
      seriesStatusLoop expected l seen = SeriesStatus.Unknown := by
  induction l with
  | nil =>
    rintro seen ⟨c, hc, -⟩ - - -
    exact absurd hc (List.not_mem_nil c)
  | cons c rest ih =>
    intro seen hex hall hnodup hdisj
    cases hpc : parseCount c with
    | none => simp [seriesStatusLoop, hpc]
    | some v =>
      obtain ⟨hv1, hv2⟩ := hall c (List.mem_cons_self _ _) v hpc
      have hfm : List.filterMap parseCount (c :: rest) = v :: List.filterMap parseCount rest := by
        simp [List.filterMap_cons, hpc]
      rw [hfm] at hnodup hdisj
      have hrange : ¬ (v ≤ 0 ∨ expected < v) := by
        push_neg
        exact ⟨hv1, hv2⟩
      have hseen : v ∉ seen := hdisj v (List.mem_cons_self _ _)
      have hstep : seriesStatusLoop expected (c :: rest) seen =
          seriesStatusLoop expected rest (v :: seen) := by
        simp only [seriesStatusLoop, hpc]
        rw [if_neg hrange, if_neg hseen]
      rw [hstep]
      obtain ⟨c2, hc2, hc2none⟩ := hex
      rcases List.mem_cons.mp hc2 with rfl | hc2
      · rw [hpc] at hc2none
        cases hc2none
      · exact ih (v :: seen) ⟨c2, hc2, hc2none⟩
          (fun c3 hc3 => hall c3 (List.mem_cons_of_mem _ hc3))
          (List.Nodup.of_cons hnodup)
          (fun w hw => by
            simp only [List.mem_cons, not_or]
            exact ⟨fun hwv => (List.nodup_cons.mp hnodup).1 (hwv ▸ hw),
                   hdisj w (List.mem_cons_of_mem _ hw)⟩)

theorem seriesStatusLoop_inconsistent (expected : Nat) (l : List (Option String)) :
    ∀ seen : List Nat,
      (∀ c ∈ l, (parseCount c).isSome = true) →
      ¬ ((∀ v ∈ l.filterMap parseCount, 1 ≤ v ∧ v ≤ expected) ∧
         (l.filterMap parseCount).Nodup ∧
         (∀ v ∈ l.filterMap parseCount, v ∉ seen)) →
      seriesStatusLoop expected l seen = SeriesStatus.Inconsistent := by
  induction l with
  | nil =>
    intro seen _ hbad
    refine absurd ⟨?_, ?_, ?_⟩ hbad <;> simp
  | cons c rest ih =>
    intro seen hall hbad
    obtain ⟨v, hv⟩ := Option.isSome_iff_exists.mp (hall c (List.mem_cons_self _ _))
    by_cases hrange : v ≤ 0 ∨ expected < v
    · simp only [seriesStatusLoop, hv]
      rw [if_pos hrange]
    · by_cases hseen : v ∈ seen
      · simp only [seriesStatusLoop, hv]
        rw [if_neg hrange, if_pos hseen]
      · have hstep : seriesStatusLoop expected (c :: rest) seen =
            seriesStatusLoop expected rest (v :: seen) := by
          simp only [seriesStatusLoop, hv]
          rw [if_neg hrange, if_neg hseen]
        rw [hstep]
        apply ih (v :: seen) (fun c2 hc2 => hall c2 (List.mem_cons_of_mem _ hc2))
        rintro ⟨hr, hn, hd⟩
        apply hbad
        have hfm : List.filterMap parseCount (c :: rest) = v :: List.filterMap parseCount rest := by
          simp [List.filterMap_cons, hv]
        rw [hfm]
        push_neg at hrange
        refine ⟨?_, ?_, ?_⟩
        · intro w hw
          rcases List.mem_cons.mp hw with rfl | hw
          · exact ⟨hrange.1, hrange.2⟩
          · exact hr w hw
        · rw [List.nodup_cons]
          exact ⟨fun hvrest => (hd v hvrest) (List.mem_cons_self _ _), hn⟩
        · intro w hw
          rcases List.mem_cons.mp hw with rfl | hw
          · exact hseen
          · intro hwseen
            exact (hd w hw) (List.mem_cons_of_mem _ hwseen)

/-- C2 (amended): GetSeriesStatus checks the children in enumeration order,
so its result is: Unknown when the expected-count metadata is missing or
non-numeric, or when some child index is missing or non-numeric while every
parseable child index is in range and the indices are pairwise distinct;
Inconsistent when every child index parses and some index is zero, exceeds
the expected count, or is duplicated; Complete when every child index
parses, is in range and is distinct and the number of children equals the
expected count; Missing in the same situation with a different count.
(When a non-numeric index and an out-of-range or duplicate index both
occur, the result is decided by whichever child comes first.) -/
theorem getSeriesStatus_characterization (expectedMeta : Option String)
    (childMeta : List (Option String)) :
    (parseCount expectedMeta = none →
      getSeriesStatus expectedMeta childMeta = SeriesStatus.Unknown) ∧
    (∀ expected, parseCount expectedMeta = some expected →
      ((∀ c ∈ childMeta, ∃ v, parseCount c = some v ∧ 1 ≤ v ∧ v ≤ expected) →
        (childMeta.filterMap parseCount).Nodup →
        getSeriesStatus expectedMeta childMeta =
          (if childMeta.length = expected then SeriesStatus.Complete
           else SeriesStatus.Missing)) ∧
      ((∃ c ∈ childMeta, parseCount c = none) →
        (∀ c ∈ childMeta, ∀ v, parseCount c = some v → 1 ≤ v ∧ v ≤ expected) →
        (childMeta.filterMap parseCount).Nodup →
        getSeriesStatus expectedMeta childMeta = SeriesStatus.Unknown) ∧
      ((∀ c ∈ childMeta, (parseCount c).isSome = true) →
        ((∃ v ∈ childMeta.filterMap parseCount, v = 0 ∨ expected < v) ∨
          ¬ (childMeta.filterMap parseCount).Nodup) →
        getSeriesStatus expectedMeta childMeta = SeriesStatus.Inconsistent)) := by
  constructor
  · intro h
    simp [getSeriesStatus, h]
  · intro expected hexp
    refine ⟨?_, ?_, ?_⟩
    · intro hall hnodup
      simp only [getSeriesStatus, hexp]
      rw [seriesStatusLoop_allOk expected childMeta [] hall hnodup (by simp)]
      simp
    · intro hex hall hnodup
      simp only [getSeriesStatus, hexp]
      exact seriesStatusLoop_unknown expected childMeta [] hex hall hnodup (by simp)
    · intro hall hbad
      simp only [getSeriesStatus, hexp]
      apply seriesStatusLoop_inconsistent expected childMeta [] hall
      rintro ⟨hr, hn, -⟩
      rcases hbad with ⟨v, hvmem, hvbad⟩ | hbad
      · obtain ⟨h1, h2⟩ := hr v hvmem
        rcases hvbad with rfl | hvbad
        · exact absurd h1 (by simp)
        · exact absurd h2 (not_le.mpr hvbad)
      · exact hbad hn

/-- C2 amended-theorem witness: expected 2 with children 1, 2 is Complete;
expected 2 with children 1, non-numeric is Unknown; expected 2 with the
single child 3 is Inconsistent. -/
theorem getSeriesStatus_characterization_witness :
    getSeriesStatus (some "2") [some "1", some "2"] = SeriesStatus.Complete ∧
    getSeriesStatus (some "2") [some "1", some "abc"] = SeriesStatus.Unknown ∧
    getSeriesStatus (some "2") [some "3"] = SeriesStatus.Inconsistent := by
  refine ⟨?_, ?_, ?_⟩
  · have h := ((getSeriesStatus_characterization (some "2") [some "1", some "2"]).2
      2 rfl).1 (by decide) (by decide)
    simpa using h
  · exact ((getSeriesStatus_characterization (some "2") [some "1", some "abc"]).2
      2 rfl).2.1 (by decide) (by decide) (by decide)
  · exact ((getSeriesStatus_characterization (some "2") [some "3"]).2
      2 rfl).2.2 (by decide) (by decide)

/-! ## Theorems: ServerIndex::Store -/

theorem foldl_addAttachment_resources (atts : List Attachment) (s : IndexState) (id : Nat) :
    (atts.foldl (fun st a => addAttachment st id a) s).resources = s.resources := by
  induction atts generalizing s with
  | nil => rfl
  | cons a atts ih =>
    rw [List.foldl_cons, ih]
    rfl

theorem storeFinish_resources (x : DicomMap) (atts : List Attachment)
    (remoteAet now : String) (instance_ series : Nat) (isNewSeries : Bool)
    (s3 : IndexState) :
    (storeFinish x atts remoteAet now instance_ series isNewSeries s3).resources =
      s3.resources := by
  simp only [storeFinish]
  repeat' split
  all_goals simp [logChange, setMetadata, foldl_addAttachment_resources]

theorem storeHierarchy_resources_mono (s : IndexState) (x : DicomMap) (instance_ : Nat)
    (r : Resource) (h : r ∈ s.resources) :
    r ∈ (storeHierarchy s x instance_).2.2.resources := by
  simp only [storeHierarchy]
  repeat' split
  all_goals
    simp only [attachChild, setMainDicomTags, createResource, List.mem_cons]
  all_goals tauto

theorem store_creates_instance (s : IndexState) (x : DicomMap) (atts : List Attachment)
    (remoteAet now : String) (h : lookupResource s (hashInstance x) = none) :
    (⟨s.nextId, hashInstance x, ResourceType.Instance⟩ : Resource) ∈
      (store s x atts remoteAet now).2.resources := by
  simp only [store, h]
  rw [storeFinish_resources]
  apply storeHierarchy_resources_mono
  simp [setMainDicomTags, createResource]

/-- C1: if a resource whose public id is HashInstance(x) already exists,
store(x, attachments, remote_aet) returns AlreadyStored and leaves the
whole index state (resources, hierarchy, main tags, metadata, attachments,
change log) untouched; a first store of x returns Success and an
immediately following second store of x returns AlreadyStored, again
leaving the post-first-store state untouched. -/
theorem serverIndex_store_idempotent (s : IndexState) (x : DicomMap)
    (atts : List Attachment) (remoteAet now : String) :
    ((lookupResource s (hashInstance x)).isSome = true →
      store s x atts remoteAet now = (StoreStatus.AlreadyStored, s)) ∧
    (lookupResource s (hashInstance x) = none →
      (store s x atts remoteAet now).1 = StoreStatus.Success ∧
      store (store s x atts remoteAet now).2 x atts remoteAet now =
        (StoreStatus.AlreadyStored, (store s x atts remoteAet now).2)) := by
  constructor
  · intro hsome
    obtain ⟨r, hr⟩ := Option.isSome_iff_exists.mp hsome
    simp [store, hr]
  · intro h
    constructor
    · simp [store, h]
    · have hmem := store_creates_instance s x atts remoteAet now h
      have hsome : (lookupResource (store s x atts remoteAet now).2
          (hashInstance x)).isSome = true := by
        rw [lookupResource, List.find?_isSome]
        exact ⟨_, hmem, by simp⟩
      obtain ⟨r2, hr2⟩ := Option.isSome_iff_exists.mp hsome
      generalize hs2 : (store s x atts remoteAet now).2 = s2 at hr2 ⊢
      simp [store, hr2]

/-- The concrete DICOM summary of scenario S1 of the spec. -/
def sampleSummary : DicomMap :=
  [(DICOM_TAG_PATIENT_ID, "P1"), (DICOM_TAG_STUDY_INSTANCE_UID, "S1"),
   (DICOM_TAG_SERIES_INSTANCE_UID, "Se1"), (DICOM_TAG_SOP_INSTANCE_UID, "I1"),
   (DICOM_TAG_INSTANCE_NUMBER, "1"), (DICOM_TAG_NUMBER_OF_SLICES, "1")]

/-- C1 witness: on the empty index the sample instance is absent, its first
store returns Success and the immediately following second store returns
AlreadyStored leaving the state untouched. -/
theorem serverIndex_store_idempotent_witness :
    lookupResource IndexState.empty (hashInstance sampleSummary) = none ∧
    (store IndexState.empty sampleSummary [] "AET" "t").1 = StoreStatus.Success ∧
    store (store IndexState.empty sampleSummary [] "AET" "t").2 sampleSummary [] "AET" "t" =
      (StoreStatus.AlreadyStored,
       (store IndexState.empty sampleSummary [] "AET" "t").2) := by
  refine ⟨rfl, ?_⟩
  exact (serverIndex_store_idempotent IndexState.empty sampleSummary [] "AET" "t").2 rfl

end Orthanc
